import Mathlib

/-!
Verification development for the agent-orchestration and tool-call scheduling
subsystem of the gemini-cli repository.

The definitions below are a shallow embedding of the TypeScript source:

* `CoreToolScheduler` (packages/core/src/core/coreToolScheduler.ts, as shown in
  agent_mode_analysis.md): tool-call records, intake, concurrent start, and
  per-record completion.
* `GeminiClient.sendMessageStream` (packages/core/src/core/client.ts): the
  recursive driver loop with its turn budget.
* `Turn.handlePendingFunctionCall` and the thought-fragment parser of
  `Turn.run` (packages/core/src/core/turn.ts).
* `MainAgent` / `ToolsAgent` / `AgentOrchestrator`
  (packages/core/src/agents/mainAgent.ts, toolsAgent.ts, orchestrator.ts).

JavaScript strings that the proofs reason about character by character are
modelled as `List Char`; strings used only as opaque payloads or error
messages are modelled as `String`.  Asynchronous completion of a tool's
`execute` promise is modelled by passing the promise's settled outcome
(`Except String String`) and the abort flag observed at settlement time as
explicit inputs.  Code that throws is modelled with `Except`.
-/

deriving instance DecidableEq for Except

namespace GeminiCli

/-! ## CoreToolScheduler (coreToolScheduler.ts) -/

/-- The status strings of a `ToolCall` in `CoreToolScheduler`:
`'validating' | 'scheduled' | 'awaiting_approval' | 'executing' | 'success'
| 'error' | 'cancelled'`. -/
inductive ToolCallStatus where
  | validating
  | scheduled
  | awaitingApproval
  | executing
  | success
  | error
  | cancelled
deriving DecidableEq, Repr

/-- Terminal statuses: `success`, `error`, `cancelled`. -/
def ToolCallStatus.isTerminal : ToolCallStatus → Bool
  | .success => true
  | .error => true
  | .cancelled => true
  | _ => false

/-- `ToolCallRequestInfo` from turn.ts: one requested invocation. The opaque
argument map is modelled as a `String` payload. -/
structure ToolCallRequestInfo where
  callId : String
  name : String
  args : String
  isClientInitiated : Bool
deriving DecidableEq, Repr

/-- The behaviour of one registered tool, as consumed by the scheduler:
the settled outcome of `shouldConfirmExecute` (`.error` models a thrown
exception, `.ok (some d)` a confirmation descriptor, `.ok none` no
confirmation needed) and the settled outcome of `execute` (`.error` models a
rejected promise). -/
structure Tool where
  confirmOutcome : Except String (Option String)
  executeOutcome : Except String String
deriving DecidableEq, Repr

/-- The tool registry: name → tool lookup (`toolRegistry.getTool`). -/
def Registry := List (String × Tool)

/-- `toolRegistry.getTool(name)`. -/
def getTool (registry : Registry) (name : String) : Option Tool :=
  (List.find? (fun p => p.fst == name) registry).map (fun p => p.snd)

/-- `ApprovalMode.YOLO` versus the default interactive mode. -/
inductive ApprovalMode where
  | YOLO
  | DEFAULT
deriving DecidableEq, Repr

/-- One entry of `this.toolCalls`.  `invoked` records whether the tool's
`execute` has been invoked for this record (set when the record transitions
to `executing` in `attemptExecutionOfScheduledCalls`). -/
structure ToolCall where
  request : ToolCallRequestInfo
  status : ToolCallStatus
  tool : Option Tool
  response : Option String
  confirmationDetails : Option String
  invoked : Bool
deriving DecidableEq, Repr

/-- Record creation inside `schedule`: unknown tool name yields an immediate
`error` record carrying the "not found" message; otherwise a `validating`
record holding the tool instance. -/
def createToolCall (registry : Registry) (req : ToolCallRequestInfo) : ToolCall :=
  match getTool registry req.name with
  | none =>
      { request := req
        status := .error
        tool := none
        response := some ("Tool \"" ++ req.name ++ "\" not found")
        confirmationDetails := none
        invoked := false }
  | some t =>
      { request := req
        status := .validating
        tool := some t
        response := none
        confirmationDetails := none
        invoked := false }

/-- The intake loop of `schedule`: each record still `validating` is moved to
`scheduled` under `ApprovalMode.YOLO`; otherwise `shouldConfirmExecute` is
consulted — a confirmation descriptor moves it to `awaiting_approval`, no
descriptor to `scheduled`, and a thrown exception to `error`. -/
def processIntake (mode : ApprovalMode) (tc : ToolCall) : ToolCall :=
  if tc.status ≠ .validating then tc
  else
    match tc.tool with
    | none => tc
    | some t =>
        match mode with
        | .YOLO => { tc with status := .scheduled }
        | .DEFAULT =>
            match t.confirmOutcome with
            | .error e => { tc with status := .error, response := some e }
            | .ok (some d) =>
                { tc with status := .awaitingApproval, confirmationDetails := some d }
            | .ok none => { tc with status := .scheduled }

/-- `attemptExecutionOfScheduledCalls`, per record: every `scheduled` record
transitions to `executing` and its tool's `execute` is invoked. -/
def startScheduled (tc : ToolCall) : ToolCall :=
  if tc.status = .scheduled then { tc with status := .executing, invoked := true }
  else tc

/-- Settlement of one `executing` record's `execute` promise, from the
`.then`/`.catch` handlers in `attemptExecutionOfScheduledCalls`: on a
resolved promise the record becomes `cancelled` when `signal.aborted` is
already true, else `success`; on a rejected promise it becomes `error`
(the `.catch` handler does not consult the signal). -/
def completeExecuting (aborted : Bool) (tc : ToolCall) : ToolCall :=
  if tc.status ≠ .executing then tc
  else
    match tc.tool with
    | none => tc
    | some t =>
        match t.executeOutcome with
        | .ok r =>
            if aborted then
              { tc with status := .cancelled,
                        response := some "User cancelled tool execution." }
            else { tc with status := .success, response := some r }
        | .error e => { tc with status := .error, response := some e }

/-- The scheduler's mutable state: `this.toolCalls`. -/
structure SchedulerState where
  toolCalls : List ToolCall
deriving DecidableEq, Repr

/-- Modelled from the spec: the body of `CoreToolScheduler.isRunning` is not
present under src/ (only its call site in `schedule` is).  Per the spec's
precondition — "scheduler has no active (non-terminal) batch" — it holds
exactly when some held record is still non-terminal. -/
def isRunning (st : SchedulerState) : Bool :=
  st.toolCalls.any (fun tc => !tc.status.isTerminal)

/-- `CoreToolScheduler.schedule`: throws the fatal "already running" error
when `isRunning`, otherwise appends the new batch (record creation, intake,
and the concurrent start of all `scheduled` records). -/
def schedule (registry : Registry) (mode : ApprovalMode)
    (requests : List ToolCallRequestInfo) (st : SchedulerState) :
    Except String SchedulerState :=
  if isRunning st then
    .error "Cannot schedule new tool calls while other tool calls are actively running"
  else
    .ok { toolCalls :=
            st.toolCalls ++
              requests.map (fun r => startScheduled (processIntake mode (createToolCall registry r))) }

/-- Settlement of the whole batch: every `executing` record's `execute`
promise settles while the abort flag reads `aborted`. -/
def completeAll (aborted : Bool) (st : SchedulerState) : SchedulerState :=
  { toolCalls := st.toolCalls.map (completeExecuting aborted) }

/-! ### Lemmas about the scheduler -/

/-- A freshly scheduled record is never in the `success` state: intake and
concurrent start only produce `error`, `awaiting_approval`, `executing`, or
leave the record `validating`. -/
theorem status_after_start_ne_success (registry : Registry) (mode : ApprovalMode)
    (r : ToolCallRequestInfo) :
    (startScheduled (processIntake mode (createToolCall registry r))).status ≠ .success := by
  unfold createToolCall
  cases h : getTool registry r.name with
  | none => simp [processIntake, startScheduled]
  | some t =>
      cases mode with
      | YOLO => simp [processIntake, startScheduled]
      | DEFAULT =>
          cases hc : t.confirmOutcome with
          | error e => simp [processIntake, startScheduled, hc]
          | ok o => cases o <;> simp [processIntake, startScheduled, hc]

/-- Settling a record while the abort flag is set never yields `success`:
a resolved promise is recorded `cancelled`, a rejected one `error`, and a
record not in `executing` keeps its status. -/
theorem completeExecuting_aborted_ne_success (tc : ToolCall)
    (h : tc.status ≠ .success) :
    (completeExecuting true tc).status ≠ .success := by
  unfold completeExecuting
  by_cases he : tc.status = .executing
  · cases ht : tc.tool with
    | none => simp [he, ht, h]
    | some t =>
        cases hx : t.executeOutcome with
        | ok r => simp [he, ht, hx]
        | error e => simp [he, ht, hx]
  · simp [he, h]

/-- Unfolding `schedule` in the non-running case. -/
theorem schedule_ok_toolCalls (registry : Registry) (mode : ApprovalMode)
    (reqs : List ToolCallRequestInfo) (st st' : SchedulerState)
    (hok : schedule registry mode reqs st = .ok st') :
    st'.toolCalls =
      st.toolCalls ++
        reqs.map (fun r => startScheduled (processIntake mode (createToolCall registry r))) := by
  unfold schedule at hok
  split at hok
  · exact absurd hok (by simp)
  · injection hok with h
    rw [← h]

/-- C3: scheduling a new batch while the held batch has a non-terminal record
always raises the fatal "already running" error and processes nothing. -/
theorem c3_schedule_while_running (registry : Registry) (mode : ApprovalMode)
    (reqs : List ToolCallRequestInfo) (st : SchedulerState)
    (h : isRunning st = true) :
    schedule registry mode reqs st =
      .error "Cannot schedule new tool calls while other tool calls are actively running" := by
  simp [schedule, h]

/-- A scheduler state holding one record still in the `executing` state. -/
def runningState : SchedulerState :=
  { toolCalls := [{ request := ⟨"call-0", "ls", "", false⟩
                    status := .executing
                    tool := none
                    response := none
                    confirmationDetails := none
                    invoked := true }] }

theorem c3_schedule_while_running_witness :
    isRunning runningState = true ∧
      schedule [] .YOLO [] runningState =
        .error "Cannot schedule new tool calls while other tool calls are actively running" :=
  ⟨rfl, c3_schedule_while_running [] .YOLO [] runningState rfl⟩

/-- C2: a request naming an unregistered tool yields a record that is
immediately in the `error` state with the "not found" message, whose
`execute` is never invoked, and which is untouched by batch settlement. -/
theorem c2_unknown_tool (registry : Registry) (mode : ApprovalMode)
    (reqs : List ToolCallRequestInfo) (st st' : SchedulerState)
    (req : ToolCallRequestInfo)
    (hlookup : getTool registry req.name = none)
    (hmem : req ∈ reqs)
    (hok : schedule registry mode reqs st = .ok st') :
    ∃ tc ∈ st'.toolCalls,
      tc.request = req ∧
      tc.status = .error ∧
      tc.response = some ("Tool \"" ++ req.name ++ "\" not found") ∧
      tc.invoked = false ∧
      ∀ aborted, completeExecuting aborted tc = tc := by
  have hst := schedule_ok_toolCalls registry mode reqs st st' hok
  have hrec : startScheduled (processIntake mode (createToolCall registry req)) =
      { request := req
        status := .error
        tool := none
        response := some ("Tool \"" ++ req.name ++ "\" not found")
        confirmationDetails := none
        invoked := false } := by
    simp [createToolCall, hlookup, processIntake, startScheduled]
  refine ⟨startScheduled (processIntake mode (createToolCall registry req)), ?_, ?_⟩
  · rw [hst]
    exact List.mem_append_right _ (List.mem_map_of_mem _ hmem)
  · rw [hrec]
    refine ⟨rfl, rfl, rfl, rfl, ?_⟩
    intro aborted
    simp [completeExecuting]

/-- A request whose tool name is in no registry. -/
def unknownReq : ToolCallRequestInfo :=
  { callId := "call-1", name := "no_such_tool", args := "", isClientInitiated := false }

theorem c2_unknown_tool_witness :
    ∃ tc ∈ (SchedulerState.mk
        [{ request := unknownReq
           status := .error
           tool := none
           response := some ("Tool \"no_such_tool\" not found")
           confirmationDetails := none
           invoked := false }]).toolCalls,
      tc.request = unknownReq ∧
      tc.status = .error ∧
      tc.response = some ("Tool \"" ++ unknownReq.name ++ "\" not found") ∧
      tc.invoked = false ∧
      ∀ aborted, completeExecuting aborted tc = tc :=
  c2_unknown_tool [] .YOLO [unknownReq] ⟨[]⟩ _ unknownReq rfl (List.mem_singleton.mpr rfl) rfl

/-- A registered tool whose `execute` promise rejects. -/
def boomTool : Tool :=
  { confirmOutcome := .ok none, executeOutcome := .error "tool failed" }

/-- A request for `boomTool`. -/
def boomReq : ToolCallRequestInfo :=
  { callId := "call-2", name := "boom", args := "", isClientInitiated := false }

/-- C1 counterexample: the cancellation token is signalled after submission
and before the single record completes (the abort flag reads `true` at
settlement), yet the record — whose `execute` promise rejects — ends in the
`Error` state, not `Cancelled`: the `.catch` handler never consults the
signal. -/
theorem c1_cancel_counterexample :
    (schedule [("boom", boomTool)] .YOLO [boomReq] ⟨[]⟩).map
        (fun st => (completeAll true st).toolCalls.map ToolCall.status) =
      .ok [ToolCallStatus.error] ∧
    ToolCallStatus.error ≠ ToolCallStatus.cancelled ∧
    ToolCallStatus.error.isTerminal = true :=
  ⟨rfl, by decide, rfl⟩

/-- C1 amended: when the cancellation token is signalled before any record
completes, no record ends in `Success` — a record whose `execute` resolves
ends `Cancelled`, but a record whose `execute` rejects ends `Error`. -/
theorem c1_cancellation_amended (registry : Registry) (mode : ApprovalMode)
    (reqs : List ToolCallRequestInfo) (st st' : SchedulerState)
    (hok : schedule registry mode reqs st = .ok st')
    (h0 : ∀ tc ∈ st.toolCalls, tc.status ≠ .success) :
    (∀ tc ∈ (completeAll true st').toolCalls, tc.status ≠ .success) ∧
    (∀ tc ∈ st'.toolCalls, tc.status = .executing → ∀ t, tc.tool = some t →
      (completeExecuting true tc).status =
        (match t.executeOutcome with
         | .ok _ => ToolCallStatus.cancelled
         | .error _ => ToolCallStatus.error)) := by
  have hst := schedule_ok_toolCalls registry mode reqs st st' hok
  constructor
  · intro tc' htc'
    unfold completeAll at htc'
    simp only [List.mem_map] at htc'
    obtain ⟨tc, htc, rfl⟩ := htc'
    rw [hst] at htc
    rcases List.mem_append.mp htc with hold | hnew
    · exact completeExecuting_aborted_ne_success tc (h0 tc hold)
    · simp only [List.mem_map] at hnew
      obtain ⟨r, _, rfl⟩ := hnew
      exact completeExecuting_aborted_ne_success _ (status_after_start_ne_success registry mode r)
  · intro tc _ hexec t ht
    unfold completeExecuting
    rw [ht]
    cases hx : t.executeOutcome <;> simp [hexec, hx]

/-- A registered tool whose `execute` promise resolves. -/
def okTool : Tool :=
  { confirmOutcome := .ok none, executeOutcome := .ok "done" }

/-- A request for `okTool`. -/
def okReq : ToolCallRequestInfo :=
  { callId := "call-3", name := "ok", args := "", isClientInitiated := false }

theorem c1_cancellation_amended_witness :
    (∀ tc ∈ (completeAll true
        (SchedulerState.mk
          [{ request := okReq
             status := .executing
             tool := some okTool
             response := none
             confirmationDetails := none
             invoked := true }])).toolCalls, tc.status ≠ .success) ∧
    (∀ tc ∈ (SchedulerState.mk
        [{ request := okReq
           status := .executing
           tool := some okTool
           response := none
           confirmationDetails := none
           invoked := true }]).toolCalls, tc.status = .executing → ∀ t, tc.tool = some t →
      (completeExecuting true tc).status =
        (match t.executeOutcome with
         | .ok _ => ToolCallStatus.cancelled
         | .error _ => ToolCallStatus.error)) :=
  c1_cancellation_amended [("ok", okTool)] .YOLO [okReq] ⟨[]⟩ _ rfl
    (by intro tc htc; simp at htc)

/-! ## GeminiClient.sendMessageStream (client.ts) — the driver loop

`sendMessageStream(request, signal, turns)` clamps `turns` to
`MAX_TURNS = 100`, returns at once on a zero budget, runs one `Turn`, and —
when the turn left no pending tool calls and `checkNextSpeaker` answers
`'model'` — recurses with the synthetic "Please continue." request and
`boundedTurns - 1`.  The model abstracts one invocation to the pair
(number of turns run, number of recursive continuations); the environment's
decision "no pending tool calls, not aborted, and next speaker is the
model" at each recursion depth is the oracle `cont`. -/

/-- `MAX_TURNS` of `GeminiClient`. -/
def MAX_TURNS : Nat := 100

/-- `GeminiClient.sendMessageStream`, counting (turns run, recursive
continuations).  A zero `boundedTurns` returns immediately without running a
turn; otherwise one turn runs and, if the continuation check succeeds, the
loop recurses with one unit less of budget. -/
def sendMessageStream (cont : Nat → Bool) (depth turns : Nat) : Nat × Nat :=
  let boundedTurns := min turns MAX_TURNS
  if h : boundedTurns = 0 then (0, 0)
  else if cont depth then
    let rest := sendMessageStream cont (depth + 1) (boundedTurns - 1)
    (1 + rest.1, 1 + rest.2)
  else (1, 0)
termination_by turns
decreasing_by
  simp only [MAX_TURNS] at *
  omega

/-- C4: a call with budget zero returns immediately, running no backend turn
and making no continuation; and for every budget `t`, the number of
recursive continuations is at most `min t 100`, each made with one unit less
of budget (the model is a total function, so no error is raised). -/
theorem c4_turn_budget (cont : Nat → Bool) (depth turns : Nat) :
    sendMessageStream cont depth 0 = (0, 0) ∧
    (sendMessageStream cont depth turns).2 ≤ min turns MAX_TURNS := by
  constructor
  · rw [sendMessageStream]
    simp [MAX_TURNS]
  · induction turns using Nat.strong_induction_on generalizing depth with
    | _ t ih =>
      rw [sendMessageStream]
      by_cases h : min t MAX_TURNS = 0
      · simp [h]
      · have h1 : min t MAX_TURNS - 1 < t := by
          simp only [MAX_TURNS] at *
          omega
        have h2 := ih (min t MAX_TURNS - 1) h1 (depth + 1)
        have h3 : min (min t MAX_TURNS - 1) MAX_TURNS = min t MAX_TURNS - 1 := by
          simp only [MAX_TURNS] at *
          omega
        rw [h3] at h2
        by_cases hc : cont depth <;> simp [h, hc] <;> omega

/-- Scenario D of the spec: budget 1 with a backend that always requests
continuation runs exactly one turn; the single recursive continuation
receives budget 0 and runs nothing further. -/
theorem c4_turn_budget_scenarioD :
    sendMessageStream (fun _ => true) 0 1 = (1, 1) ∧
    sendMessageStream (fun _ => true) 1 0 = (0, 0) := by
  constructor
  · rw [sendMessageStream, sendMessageStream]
    norm_num [MAX_TURNS]
  · rw [sendMessageStream]
    norm_num [MAX_TURNS]

/-! ## Turn (turn.ts)

JavaScript strings processed character by character are modelled as
`List Char`. -/

/-- `String.prototype.trim()`: strip whitespace from both ends. -/
def jsTrim (l : List Char) : List Char :=
  ((l.dropWhile Char.isWhitespace).reverse.dropWhile Char.isWhitespace).reverse

/-- Index of the first occurrence of the two-character marker `**`, as the
regex engine scans `/\*\*/` left to right. -/
def findMarker : List Char → Option Nat
  | [] => none
  | c :: rest =>
      if c = '*' ∧ rest.head? = some '*' then some 0
      else (findMarker rest).map Nat.succ

/-- The first match of `/\*\*(.*?)\*\*/s` on the fragment: the opening
marker's index and the closing marker's index.  The lazy group takes the
closest closing marker starting at or after the capture start. -/
def matchBold (l : List Char) : Option (Nat × Nat) :=
  match findMarker l with
  | none => none
  | some i =>
      match findMarker (l.drop (i + 2)) with
      | none => none
      | some j => some (i, i + 2 + j)

/-- The thought-fragment parser in `Turn.run`: `subject` is the trimmed
capture of the first `**…**` span, `description` the trimmed fragment with
the whole matched span removed; with no match, the subject is empty and the
description the trimmed fragment. -/
def parseThought (raw : List Char) : List Char × List Char :=
  match matchBold raw with
  | none => ([], jsTrim raw)
  | some (i, j) =>
      (jsTrim ((raw.drop (i + 2)).take (j - (i + 2))),
       jsTrim (raw.take i ++ raw.drop (j + 2)))

/-- `Turn.handlePendingFunctionCall`'s inputs from one backend chunk: the
optional backend-assigned id and the optional tool name. -/
structure FunctionCall where
  id : Option (List Char)
  name : Option (List Char)
deriving DecidableEq, Repr

/-- The generated call identifier
`` `${fnCall.name}-${Date.now()}-${Math.random().toString(16).slice(2)}` ``:
the interpolated tool name (JavaScript renders a missing name as
`undefined`), the rendered timestamp, and the rendered random suffix.  The
timestamp and random draw are environment oracles, taken here in their
rendered form. -/
def genCallId (name : Option (List Char)) (nowChars randChars : List Char) : List Char :=
  (match name with
   | some n => n
   | none => "undefined".toList) ++ '-' :: (nowChars ++ '-' :: randChars)

/-- `Turn.handlePendingFunctionCall`: the emitted request's `callId` is the
backend id when present, else the generated one; the recorded tool name
falls back to `undefined_tool_name` when the chunk's name is missing or
empty. -/
def handlePendingFunctionCall (fc : FunctionCall) (nowChars randChars : List Char) :
    List Char × List Char :=
  (match fc.id with
   | some i => i
   | none => genCallId fc.name nowChars randChars,
   match fc.name with
   | some n => if n = [] then "undefined_tool_name".toList else n
   | none => "undefined_tool_name".toList)

/-! ### Lemmas about the Turn -/

/-- The first `**` in `pre ++ "**" ++ rest` sits right after a `pre` that
contains no `*` at all. -/
theorem findMarker_append_stars (pre rest : List Char) (h : '*' ∉ pre) :
    findMarker (pre ++ '*' :: '*' :: rest) = some pre.length := by
  induction pre with
  | nil => simp [findMarker]
  | cons p ps ih =>
      simp only [List.mem_cons, not_or] at h
      obtain ⟨hp, hps⟩ := h
      have hp2 : p ≠ '*' := fun heq => hp heq.symm
      simp [findMarker, hp2, ih hps]

/-- Splitting at an unambiguous dash: if neither left part contains a dash,
equal dash-joined strings have equal parts. -/
theorem append_dash_inj (a c b d : List Char) :
    '-' ∉ a → '-' ∉ c → a ++ '-' :: b = c ++ '-' :: d → a = c ∧ b = d := by
  induction a generalizing c with
  | nil =>
      intro _ hc h
      cases c with
      | nil => simpa using h
      | cons c0 cs =>
          simp only [List.nil_append, List.cons_append, List.cons.injEq] at h
          exact absurd (h.1 ▸ List.mem_cons_self c0 cs) hc
  | cons a0 as ih =>
      intro ha hc h
      cases c with
      | nil =>
          simp only [List.cons_append, List.nil_append, List.cons.injEq] at h
          exact absurd (h.1 ▸ List.mem_cons_self a0 as) ha
      | cons c0 cs =>
          simp only [List.cons_append, List.cons.injEq] at h
          obtain ⟨rfl, h2⟩ := h
          have hmem : '-' ∉ as := fun hm => ha (List.mem_cons_of_mem _ hm)
          have hmem' : '-' ∉ cs := fun hm => hc (List.mem_cons_of_mem _ hm)
          obtain ⟨rfl, rfl⟩ := ih cs hmem hmem' h2
          exact ⟨rfl, rfl⟩

/-- C6 counterexample: the claim "two tool-call chunks in one turn that both
lack a backend id always yield two distinct generated callIds" is false —
the generated id is a pure function of the tool name, the timestamp, and the
random draw, so when the environment hands both chunks the same timestamp
and the same random suffix the two ids coincide. -/
theorem c6_call_id_counterexample :
    ¬ (∀ (fc1 fc2 : FunctionCall) (t1 t2 r1 r2 : List Char),
        fc1.id = none → fc2.id = none →
        (handlePendingFunctionCall fc1 t1 r1).1 ≠ (handlePendingFunctionCall fc2 t2 r2).1) :=
  fun h =>
    h ⟨none, some ['t']⟩ ⟨none, some ['t']⟩ ['5'] ['5'] ['a'] ['a'] rfl rfl rfl

/-- C6 amended: the emitted `callId` equals the backend id when present;
when the id is missing it is the name-timestamp-random concatenation, and
two generated ids for the same tool name are distinct whenever the rendered
timestamps or random suffixes differ (given neither rendered timestamp
contains the `-` separator). -/
theorem c6_call_id_amended :
    (∀ (i : List Char) (name : Option (List Char)) (nowChars randChars : List Char),
      (handlePendingFunctionCall ⟨some i, name⟩ nowChars randChars).1 = i) ∧
    (∀ (name : Option (List Char)) (t1 t2 r1 r2 : List Char),
      '-' ∉ t1 → '-' ∉ t2 → (t1 ≠ t2 ∨ r1 ≠ r2) →
      (handlePendingFunctionCall ⟨none, name⟩ t1 r1).1 ≠
        (handlePendingFunctionCall ⟨none, name⟩ t2 r2).1) := by
  constructor
  · intro i name nowChars randChars
    rfl
  · intro name t1 t2 r1 r2 h1 h2 hne heq
    simp only [handlePendingFunctionCall, genCallId] at heq
    have heq2 := List.append_cancel_left heq
    simp only [List.cons.injEq, true_and] at heq2
    obtain ⟨rfl, rfl⟩ := append_dash_inj t1 t2 r1 r2 h1 h2 heq2
    rcases hne with hne | hne <;> exact hne rfl

theorem c6_call_id_amended_witness :
    (handlePendingFunctionCall ⟨some ['x'], some ['t']⟩ ['5'] ['a']).1 = ['x'] ∧
    (handlePendingFunctionCall ⟨none, some ['t']⟩ ['5'] ['a']).1 ≠
      (handlePendingFunctionCall ⟨none, some ['t']⟩ ['5'] ['b']).1 :=
  ⟨c6_call_id_amended.1 ['x'] (some ['t']) ['5'] ['a'],
   c6_call_id_amended.2 (some ['t']) ['5'] ['5'] ['a'] ['b'] (by decide) (by decide)
     (Or.inr (by decide))⟩

/-- C7 counterexample: on the fragment `"**s** d "` the leading bolded
span is `s` and the fragment with that span removed is `" d "`, but the
code emits the trimmed `"d"` as description — the claim omits the trimming
that `Turn.run` applies to both subject and description. -/
theorem c7_thought_counterexample :
    parseThought "**s** d ".toList = ("s".toList, "d".toList) ∧
    "d".toList ≠ " d ".toList := by
  constructor
  · rfl
  · decide

/-- Unfolding `parseThought` on a matched span. -/
theorem parseThought_eq_some (raw : List Char) (i j : Nat)
    (h : matchBold raw = some (i, j)) :
    parseThought raw =
      (jsTrim ((raw.drop (i + 2)).take (j - (i + 2))),
       jsTrim (raw.take i ++ raw.drop (j + 2))) := by
  unfold parseThought
  rw [h]

/-- C7 amended: the `Thought` subject is the whitespace-trimmed capture of
the first `**…**` span and the description is the whitespace-trimmed
fragment with the whole span removed; a fragment with no such span yields an
empty subject and the whitespace-trimmed fragment as description. -/
theorem c7_thought_amended :
    (∀ raw : List Char, matchBold raw = none → parseThought raw = ([], jsTrim raw)) ∧
    (∀ pre mid post : List Char, '*' ∉ pre → '*' ∉ mid →
      parseThought (pre ++ '*' :: '*' :: (mid ++ '*' :: '*' :: post)) =
        (jsTrim mid, jsTrim (pre ++ post))) := by
  constructor
  · intro raw h
    unfold parseThought
    rw [h]
  · intro pre mid post hpre hmid
    have hdrop : (pre ++ '*' :: '*' :: (mid ++ '*' :: '*' :: post)).drop (pre.length + 2) =
        mid ++ '*' :: '*' :: post := by
      have hgroup : pre ++ '*' :: '*' :: (mid ++ '*' :: '*' :: post) =
          (pre ++ ['*', '*']) ++ (mid ++ '*' :: '*' :: post) := by simp
      have hlen : (pre ++ ['*', '*']).length = pre.length + 2 := by simp
      rw [hgroup, ← hlen, List.drop_left]
    have hmatch : matchBold (pre ++ '*' :: '*' :: (mid ++ '*' :: '*' :: post)) =
        some (pre.length, pre.length + 2 + mid.length) := by
      unfold matchBold
      simp only [findMarker_append_stars pre _ hpre, hdrop,
        findMarker_append_stars mid post hmid]
    rw [parseThought_eq_some _ _ _ hmatch, hdrop]
    have hlen3 : pre.length + 2 + mid.length - (pre.length + 2) = mid.length := by omega
    have hdrop2 : (pre ++ '*' :: '*' :: (mid ++ '*' :: '*' :: post)).drop
        (pre.length + 2 + mid.length + 2) = post := by
      have hgroup2 : pre ++ '*' :: '*' :: (mid ++ '*' :: '*' :: post) =
          (pre ++ '*' :: '*' :: (mid ++ ['*', '*'])) ++ post := by simp
      have hlen2 : (pre ++ '*' :: '*' :: (mid ++ ['*', '*'])).length =
          pre.length + 2 + mid.length + 2 := by
        simp only [List.length_append, List.length_cons, List.length_nil]
        omega
      rw [hgroup2, ← hlen2, List.drop_left]
    rw [hlen3, List.take_left, List.take_left, hdrop2]

theorem c7_thought_amended_witness :
    parseThought ("a ".toList ++ '*' :: '*' :: ("s".toList ++ '*' :: '*' :: " b".toList)) =
      (jsTrim "s".toList, jsTrim ("a ".toList ++ " b".toList)) ∧
    parseThought "**x".toList = ([], jsTrim "**x".toList) :=
  ⟨c7_thought_amended.2 "a ".toList "s".toList " b".toList (by decide) (by decide),
   c7_thought_amended.1 "**x".toList rfl⟩

/-! ## Two-agent layer (agents/types.ts, mainAgent.ts, toolsAgent.ts) -/

/-- `AgentType` from agents/types.ts. -/
inductive AgentType where
  | main
  | tools
deriving DecidableEq, Repr

/-- `PlanningRequest` (agents/types.ts): the structured ask carried by a
planning-request message. -/
structure PlanningRequest where
  id : String
  fromAgent : AgentType
  situation : List Char
  availableTools : List (List Char)
deriving DecidableEq, Repr

/-- `PlanningResponse` (agents/types.ts). -/
structure PlanningResponse where
  id : String
  fromAgent : AgentType
  toAgent : AgentType
  timestamp : Nat
  content : List Char
  plan : List Char
  nextSteps : List (List Char)
  toolsToUse : List (List Char)
deriving DecidableEq, Repr

/-- JavaScript `String.prototype.split('\n')`. -/
def splitLines : List Char → List (List Char)
  | [] => [[]]
  | c :: rest =>
      if c = '\n' then [] :: splitLines rest
      else
        match splitLines rest with
        | [] => [[c]]
        | l :: ls => (c :: l) :: ls

/-- `MainAgent.extractPlanFromResponse`: returns the response text verbatim. -/
def extractPlanFromResponse (response : List Char) : List Char :=
  response

/-- `MainAgent.extractToolsFromResponse`: the available tools whose
lower-cased name occurs in the lower-cased response. -/
def extractToolsFromResponse (response : List Char) (availableTools : List (List Char)) :
    List (List Char) :=
  availableTools.filter
    (fun tool => decide ((tool.map Char.toLower) <:+: (response.map Char.toLower)))

/-- `MainAgent.handlePlanningRequest`: builds the single `PlanningResponse`
from the LLM's reply text (`responseText`, an environment oracle):
`plan` is the text itself and `nextSteps` its lines filtered to those that
are non-empty after trimming. -/
def handlePlanningRequest (now : Nat) (req : PlanningRequest) (responseText : List Char) :
    PlanningResponse :=
  let plan := extractPlanFromResponse responseText
  { id := "planning_" ++ toString now
    fromAgent := .main
    toAgent := .tools
    timestamp := now
    content := responseText
    plan := plan
    nextSteps := (splitLines plan).filter (fun step => !(jsTrim step).isEmpty)
    toolsToUse := extractToolsFromResponse responseText req.availableTools }

/-- The message variants `MainAgent.processMessage` can receive. -/
inductive MainAgentInbound where
  | planningRequest (req : PlanningRequest)
  | toolExecutionResponse (toolResults : List String)
  | statusUpdate (content : List Char)
  | other
deriving Repr

/-- The replies `MainAgent.processMessage` can produce. -/
inductive MainAgentReply where
  | planningResponse (resp : PlanningResponse)
  | statusUpdate (content : List Char)
deriving Repr

/-- `MainAgent.processMessage`: a planning request yields exactly the one
planning response; a tool-execution response yields a status update when the
agent holds a context and nothing otherwise; status updates and unknown
variants are observed without reply (the console warning has no modelled
effect). -/
def mainProcessMessage (now : Nat) (hasContext : Bool) (llmText : List Char) :
    MainAgentInbound → Option MainAgentReply
  | .planningRequest req => some (.planningResponse (handlePlanningRequest now req llmText))
  | .toolExecutionResponse _ =>
      if hasContext then some (.statusUpdate llmText) else none
  | .statusUpdate _ => none
  | .other => none

/-- `ToolExecutionResponse` (agents/types.ts); the `ToolCallResponseInfo`
payloads are opaque here. -/
structure ToolExecutionResponse where
  id : String
  fromAgent : AgentType
  toAgent : AgentType
  timestamp : Nat
  content : String
  toolResults : List String
  success : Bool
  error : Option String
deriving DecidableEq, Repr

/-- `ToolsAgent.analyzeAndCreateToolCalls`: after the analysis prompt, the
implementation returns the empty list ("For now, return empty array"). -/
def analyzeAndCreateToolCalls : List ToolCallRequestInfo :=
  []

/-- `ToolsAgent.handleToolExecutionRequest`: the try-branch replies with the
placeholder success response whose `toolResults` is empty; the catch-branch
replies with `success := false` and the thrown error's message.
`internalOutcome` is the settled outcome of the awaited internal steps
(status update, LLM analysis, `toolScheduler.schedule`). -/
def handleToolExecutionRequest (now : Nat) (internalOutcome : Except String Unit) :
    ToolExecutionResponse :=
  match internalOutcome with
  | .ok _ =>
      { id := "tool_response_" ++ toString now
        fromAgent := .tools
        toAgent := .main
        timestamp := now
        content := "Tool execution completed"
        toolResults := []
        success := true
        error := none }
  | .error e =>
      { id := "tool_response_" ++ toString now
        fromAgent := .tools
        toAgent := .main
        timestamp := now
        content := "Tool execution failed"
        toolResults := []
        success := false
        error := some e }

/-- C5: the executor never propagates an internal exception — the
catch-branch reply has `success = false` and a string `error` — but the
reply's `toolResults` is always the empty list (the source's explicit
placeholder), never the batch's terminal records. -/
theorem c5_executor_reply (now : Nat) (e : String) (o : Except String Unit) :
    (handleToolExecutionRequest now o).toolResults = [] ∧
    (handleToolExecutionRequest now (.error e)).success = false ∧
    (handleToolExecutionRequest now (.error e)).error = some e ∧
    (handleToolExecutionRequest now (.ok ())).success = true ∧
    analyzeAndCreateToolCalls = [] := by
  cases o <;> exact ⟨rfl, rfl, rfl, rfl, rfl⟩

/-! ### Lemmas about the planner -/

/-- `splitLines` never returns the empty list of lines. -/
theorem splitLines_ne_nil (l : List Char) : splitLines l ≠ [] := by
  cases l with
  | nil => simp [splitLines]
  | cons c rest =>
      unfold splitLines
      by_cases h : c = '\n'
      · simp [h]
      · simp only [h, if_false]
        cases splitLines rest <;> simp

/-- Every non-newline character of the input lives in some split line. -/
theorem mem_splitLines (l : List Char) (c : Char) (hc : c ∈ l) (hne : c ≠ '\n') :
    ∃ line ∈ splitLines l, c ∈ line := by
  induction l with
  | nil => cases hc
  | cons a rest ih =>
      unfold splitLines
      by_cases ha : a = '\n'
      · rcases List.mem_cons.mp hc with rfl | hmem
        · exact absurd ha hne
        · obtain ⟨line, hline, hcl⟩ := ih hmem
          exact ⟨line, by simp [ha, hline], hcl⟩
      · rcases hsplit : splitLines rest with _ | ⟨l0, ls0⟩
        · exact absurd hsplit (splitLines_ne_nil rest)
        · rcases List.mem_cons.mp hc with rfl | hmem
          · exact ⟨c :: l0, by simp [ha, hsplit], List.mem_cons_self c l0⟩
          · obtain ⟨line, hline, hcl⟩ := ih hmem
            rw [hsplit] at hline
            rcases List.mem_cons.mp hline with rfl | htail
            · exact ⟨a :: line, by simp [ha, hsplit], List.mem_cons_of_mem a hcl⟩
            · exact ⟨line, by simp [ha, hsplit, htail], hcl⟩

/-- Dropped prefixes keep the members the predicate rejects. -/
theorem mem_dropWhile_of_neg (p : Char → Bool) (l : List Char) (c : Char)
    (hc : c ∈ l) (hp : p c = false) : c ∈ l.dropWhile p := by
  induction l with
  | nil => cases hc
  | cons a rest ih =>
      rcases List.mem_cons.mp hc with rfl | hmem
      · rw [List.dropWhile_cons, hp]
        exact List.mem_cons_self c rest
      · rw [List.dropWhile_cons]
        by_cases hpa : p a = true
        · simp only [hpa, if_true]
          exact ih hmem
        · simp only [Bool.not_eq_true] at hpa
          simp only [hpa, if_false]
          exact List.mem_cons_of_mem a hmem

/-- A string containing a non-whitespace character does not trim to the
empty string. -/
theorem jsTrim_ne_nil (l : List Char) (c : Char) (hc : c ∈ l)
    (hw : c.isWhitespace = false) : jsTrim l ≠ [] := by
  unfold jsTrim
  have h1 : c ∈ l.dropWhile Char.isWhitespace := mem_dropWhile_of_neg _ l c hc hw
  have h2 : c ∈ (l.dropWhile Char.isWhitespace).reverse := List.mem_reverse.mpr h1
  have h3 : c ∈ (l.dropWhile Char.isWhitespace).reverse.dropWhile Char.isWhitespace :=
    mem_dropWhile_of_neg _ _ c h2 hw
  exact List.ne_nil_of_mem (List.mem_reverse.mpr h3)

/-- A concrete planning request. -/
def planReq : PlanningRequest :=
  { id := "pr1", fromAgent := .tools, situation := [], availableTools := [] }

/-- C8 counterexample: on the whitespace-only (but non-empty) plan text
`" "`, the planning response's `plan` is non-empty while `nextSteps` is
empty — the line filter drops every whitespace-only line. -/
theorem c8_planning_counterexample :
    (handlePlanningRequest 0 planReq [' ']).plan ≠ [] ∧
    (handlePlanningRequest 0 planReq [' ']).nextSteps = [] := by
  exact ⟨by decide, rfl⟩

/-- C8 amended: every planning request is answered with exactly one
planning response, addressed to the tools agent (the requester), and its
`nextSteps` is non-empty whenever the plan text contains at least one
non-whitespace character. -/
theorem c8_planning_amended (now : Nat) (hasContext : Bool) (req : PlanningRequest)
    (txt : List Char) (h : ∃ c ∈ txt, c.isWhitespace = false) :
    mainProcessMessage now hasContext txt (.planningRequest req) =
      some (.planningResponse (handlePlanningRequest now req txt)) ∧
    (handlePlanningRequest now req txt).toAgent = .tools ∧
    (handlePlanningRequest now req txt).fromAgent = .main ∧
    (handlePlanningRequest now req txt).nextSteps ≠ [] := by
  obtain ⟨c, hc, hw⟩ := h
  have hne : c ≠ '\n' := by
    intro heq
    rw [heq] at hw
    exact absurd hw (by decide)
  obtain ⟨line, hline, hcl⟩ := mem_splitLines txt c hc hne
  refine ⟨rfl, rfl, rfl, ?_⟩
  have htrim : jsTrim line ≠ [] := jsTrim_ne_nil line c hcl hw
  have hempty : (jsTrim line).isEmpty = false := by
    cases hjt : jsTrim line with
    | nil => exact absurd hjt htrim
    | cons a as => rfl
  have hmem : line ∈ (splitLines txt).filter (fun step => !(jsTrim step).isEmpty) :=
    List.mem_filter.mpr ⟨hline, by rw [hempty]; rfl⟩
  simp only [handlePlanningRequest, extractPlanFromResponse]
  exact List.ne_nil_of_mem hmem

theorem c8_planning_amended_witness :
    mainProcessMessage 0 true ['x'] (.planningRequest planReq) =
      some (.planningResponse (handlePlanningRequest 0 planReq ['x'])) ∧
    (handlePlanningRequest 0 planReq ['x']).toAgent = .tools ∧
    (handlePlanningRequest 0 planReq ['x']).fromAgent = .main ∧
    (handlePlanningRequest 0 planReq ['x']).nextSteps ≠ [] :=
  c8_planning_amended 0 true planReq ['x'] ⟨'x', by decide, by decide⟩

/-! ## AgentOrchestrator (agents/orchestrator.ts) -/

/-- The orchestrator's state: the `isInitialized` flag, each agent's held
context (cleared by the agent's `shutdown`), and the two buses' message
histories. -/
structure OrchestratorState where
  isInitialized : Bool
  mainAgentContext : Option String
  toolsAgentContext : Option String
  mainHistory : List String
  toolsHistory : List String
deriving DecidableEq, Repr

/-- `AgentOrchestrator.initialize(sessionId)`: throws when already
initialized, otherwise hands both agents their context and sets the flag. -/
def orchInitialize (sessionId : String) (st : OrchestratorState) :
    Except String OrchestratorState :=
  if st.isInitialized then .error "Agent orchestrator already initialized"
  else
    .ok { st with
            isInitialized := true
            mainAgentContext := some sessionId
            toolsAgentContext := some sessionId }

/-- `AgentOrchestrator.shutdown()`: a no-op when not initialized; otherwise
shuts both agents down (releasing their contexts) and clears the flag.  The
bus histories are not touched. -/
def orchShutdown (st : OrchestratorState) : OrchestratorState :=
  if st.isInitialized then
    { st with
        isInitialized := false
        mainAgentContext := none
        toolsAgentContext := none }
  else st

/-- `AgentOrchestrator.handleUserInput(userInput)`: throws when not
initialized; otherwise returns the main agent's answer, converting a thrown
error into the string `"Error: " + message`.  `mainAgentOutcome` is the
settled outcome of `mainAgent.handleUserInput`. -/
def orchHandleUserInput (mainAgentOutcome : Except String String)
    (st : OrchestratorState) : Except String String :=
  if st.isInitialized then
    .ok (match mainAgentOutcome with
         | .ok s => s
         | .error e => "Error: " ++ e)
  else .error "Agent orchestrator not initialized"

/-- `AgentOrchestrator.getCommunicationStats()`: bus history lengths and the
active-agent count; never throws. -/
structure CommunicationStats where
  mainAgentMessages : Nat
  toolsAgentMessages : Nat
  totalMessages : Nat
  activeAgents : Nat
deriving DecidableEq, Repr

/-- The stats getter is a total function of the state. -/
def orchGetCommunicationStats (st : OrchestratorState) : CommunicationStats :=
  { mainAgentMessages := st.mainHistory.length
    toolsAgentMessages := st.toolsHistory.length
    totalMessages := st.mainHistory.length + st.toolsHistory.length
    activeAgents := if st.isInitialized then 2 else 0 }

/-- `AgentOrchestrator.clearHistory()`: the only operation clearing the
buses. -/
def orchClearHistory (st : OrchestratorState) : OrchestratorState :=
  { st with mainHistory := [], toolsHistory := [] }

/-- An initialized orchestrator state holding one bus message. -/
def c9State : OrchestratorState :=
  { isInitialized := true
    mainAgentContext := some "s"
    toolsAgentContext := some "s"
    mainHistory := ["m1"]
    toolsHistory := [] }

/-- C9 counterexample: `shutdown` leaves the bus histories intact (it does
not clear the buses), and the stats getter called before `initialize`
returns normally instead of raising an error. -/
theorem c9_lifecycle_counterexample :
    (orchShutdown c9State).mainHistory = ["m1"] ∧
    (["m1"] : List String) ≠ [] ∧
    orchGetCommunicationStats
        { isInitialized := false
          mainAgentContext := none
          toolsAgentContext := none
          mainHistory := []
          toolsHistory := [] } =
      { mainAgentMessages := 0, toolsAgentMessages := 0, totalMessages := 0,
        activeAgents := 0 } := by
  exact ⟨rfl, by decide, rfl⟩

/-- C9 amended: initializing an already-initialized orchestrator raises the
"already initialized" error; `handleUserInput` before `initialize` or after
`shutdown` raises the "not initialized" error; `shutdown` releases both
agents' contexts and clears the flag but leaves the bus histories unchanged
(they are cleared only by `clearHistory`); the stats getter never raises. -/
theorem c9_lifecycle_amended (sessionId : String) (st : OrchestratorState)
    (o : Except String String) :
    orchInitialize sessionId { st with isInitialized := true } =
      .error "Agent orchestrator already initialized" ∧
    orchHandleUserInput o { st with isInitialized := false } =
      .error "Agent orchestrator not initialized" ∧
    (orchShutdown { st with isInitialized := true }).mainAgentContext = none ∧
    (orchShutdown { st with isInitialized := true }).toolsAgentContext = none ∧
    (orchShutdown { st with isInitialized := true }).isInitialized = false ∧
    (orchShutdown { st with isInitialized := true }).mainHistory = st.mainHistory ∧
    (orchShutdown { st with isInitialized := true }).toolsHistory = st.toolsHistory ∧
    (orchClearHistory st).mainHistory = [] ∧
    (orchClearHistory st).toolsHistory = [] := by
  refine ⟨?_, ?_, ?_, ?_, ?_, ?_, ?_, ?_, ?_⟩ <;>
    simp [orchInitialize, orchHandleUserInput, orchShutdown, orchClearHistory]

/-- C10: once initialized, `handleUserInput` returns the main agent's answer
and converts any exception the main agent raises into the `"Error: "`-prefixed
message, never propagating it. -/
theorem c10_handle_user_input (st : OrchestratorState) (s e : String) :
    orchHandleUserInput (.ok s) { st with isInitialized := true } = .ok s ∧
    orchHandleUserInput (.error e) { st with isInitialized := true } =
      .ok ("Error: " ++ e) := by
  exact ⟨by simp [orchHandleUserInput], by simp [orchHandleUserInput]⟩

end GeminiCli
